import Mathlib

/-!
Shallow embedding of the media ingestion and cleanup pipeline of the
campaign-backend repository (press controller in `server.js`, media
controller, upload middleware).  The local filesystem is modelled as the
list of temp-file paths currently on disk; the remote store as the list
of public identifiers of assets currently stored; external effectful
calls (Cloudinary uploads, Mongo saves) are oracles supplied in an
environment record, returning `Except` values exactly where the
JavaScript promise can reject.
-/

namespace MediaPipeline

abbrev Path := String

/-- Filesystem state: the list of temp-file paths currently on disk. -/
abbrev FS := List Path

/-- Errors raised by `fs.promises` operations, as distinguished by the code
(`err.code === 'ENOENT'` vs anything else). -/
inductive FsError where
  | enoent
  | other
deriving DecidableEq, Repr

/-- `fs.access(path)`: resolves iff the path exists, otherwise rejects ENOENT. -/
def fsAccess (fs : FS) (p : Path) : Except FsError Unit :=
  if p ∈ fs then .ok () else .error .enoent

/-- `fs.unlink(path)`: removes the path; rejects ENOENT when absent. -/
def fsUnlink (fs : FS) (p : Path) : Except FsError FS :=
  if p ∈ fs then .ok (fs.filter (· ≠ p)) else .error .enoent

/-- One iteration of the loop body of `safeFileCleanup` (server.js
`pressController`): `try { access; unlink } catch (err) { log }` — both the
ENOENT branch and the generic branch only log, so every error is swallowed. -/
def safeCleanupOne (fs : FS) (p : Path) : FS :=
  match fsAccess fs p with
  | .error _ => fs
  | .ok _ =>
    match fsUnlink fs p with
    | .ok fs' => fs'
    | .error _ => fs

/-- `safeFileCleanup(filePaths)` from the press controller: normalises the
argument to an array and deletes each path, treating "not found" as already
cleaned.  `none` models a missing/undefined argument (`if (!filePaths) return`),
`some ps` an array of paths. -/
def safeFileCleanup (fs : FS) (filePaths : Option (List Path)) : FS :=
  match filePaths with
  | none => fs
  | some ps => ps.foldl safeCleanupOne fs

/-- One `safeFileCleanup` iteration with explicit error propagation,
mirroring the source's try/catch arms: the ENOENT catch arm logs
"already deleted" and returns normally, the generic catch arm logs the
error and returns normally — neither rethrows. -/
def safeCleanupOneE (fs : FS) (p : Path) : Except FsError FS :=
  match fsAccess fs p with
  | .error .enoent => .ok fs
  | .error .other => .ok fs
  | .ok _ =>
    match fsUnlink fs p with
    | .ok fs' => .ok fs'
    | .error .enoent => .ok fs
    | .error .other => .ok fs

/-- `safeFileCleanup` with explicit error propagation: an error escaping an
iteration would abort the loop and reject the whole call.  Used to state
that no call path lets an exception escape. -/
def safeFileCleanupE (fs : FS) : List Path → Except FsError FS
  | [] => .ok fs
  | p :: ps =>
    match safeCleanupOneE fs p with
    | .ok fs' => safeFileCleanupE fs' ps
    | .error e => .error e

/-- A multer-staged file handle as the controllers see it
(`file.path`, `file.originalname`, `file.mimetype`, `file.size`). -/
structure UpFile where
  path : Path
  originalname : String
  mimetype : String
  size : Nat
deriving DecidableEq, Repr

/-- `cleanupTempFiles(files)` from the upload middleware: for each file,
`if (file.path exists) try { unlinkSync } catch { log }`. -/
def cleanupTempFiles (fs : FS) (files : List UpFile) : FS :=
  files.foldl
    (fun acc f => if f.path ∈ acc then acc.filter (· ≠ f.path) else acc) fs

/-- Remote store state: public identifiers of assets currently stored. -/
abbrev Remote := List String

/-- `cloudinary.uploader.destroy(publicId)`: per the remote store's contract
(spec §4.2, external collaborator), destroying an identifier removes it when
present and resolves with "not found" (no rejection) when absent. -/
def cloudinaryDestroy (store : Remote) (publicId : String) :
    Except String Remote :=
  .ok (store.filter (· ≠ publicId))

/-- `deleteFromCloudinary(publicId)` from the cloudinary config module:
awaits `destroy` and rethrows its error, so it rejects exactly when the
remote call does. -/
def deleteFromCloudinary (store : Remote) (publicId : String) :
    Except String Remote :=
  match cloudinaryDestroy store publicId with
  | .ok store' => .ok store'
  | .error e => .error e

/- ### Basic lemmas about cleanup -/

lemma safeCleanupOne_eq_filter (fs : FS) (p : Path) :
    safeCleanupOne fs p = fs.filter (· ≠ p) := by
  unfold safeCleanupOne fsAccess fsUnlink
  by_cases h : p ∈ fs
  · simp [h]
  · simp only [if_neg h]
    symm
    apply List.filter_eq_self.mpr
    intro a ha
    simp only [ne_eq, decide_not, Bool.not_eq_true', decide_eq_false_iff_not]
    intro hap; exact h (hap ▸ ha)

lemma mem_safeCleanupOne (fs : FS) (p q : Path) :
    q ∈ safeCleanupOne fs p ↔ q ∈ fs ∧ q ≠ p := by
  rw [safeCleanupOne_eq_filter]
  simp [List.mem_filter]

lemma mem_safeFileCleanup_some (fs : FS) (ps : List Path) (q : Path) :
    q ∈ safeFileCleanup fs (some ps) ↔ q ∈ fs ∧ q ∉ ps := by
  unfold safeFileCleanup
  induction ps generalizing fs with
  | nil => simp
  | cons p rest ih =>
    simp only [List.foldl_cons]
    rw [ih, mem_safeCleanupOne]
    constructor
    · rintro ⟨⟨hq, hne⟩, hrest⟩
      exact ⟨hq, by simp [hne, hrest]⟩
    · rintro ⟨hq, hnin⟩
      simp only [List.mem_cons, not_or] at hnin
      exact ⟨⟨hq, hnin.1⟩, hnin.2⟩

lemma safeFileCleanup_of_disjoint (ps : List Path) :
    ∀ gs : FS, (∀ q ∈ gs, q ∉ ps) → safeFileCleanup gs (some ps) = gs := by
  induction ps with
  | nil => intro gs _; rfl
  | cons p rest ih =>
    intro gs hgs
    show (p :: rest).foldl safeCleanupOne gs = gs
    simp only [List.foldl_cons]
    have h1 : safeCleanupOne gs p = gs := by
      rw [safeCleanupOne_eq_filter]
      apply List.filter_eq_self.mpr
      intro a ha
      simp only [decide_eq_true_eq]
      intro hap
      exact hgs a ha (by simp [hap])
    rw [h1]
    exact ih gs (fun q hq hmem => hgs q hq (by simp [hmem]))

lemma safeCleanupOneE_ok (fs : FS) (p : Path) :
    safeCleanupOneE fs p = .ok (safeCleanupOne fs p) := by
  unfold safeCleanupOneE safeCleanupOne fsAccess fsUnlink
  by_cases h : p ∈ fs <;> simp [h]

lemma safeFileCleanupE_ok (ps : List Path) :
    ∀ fs, safeFileCleanupE fs ps = .ok (safeFileCleanup fs (some ps)) := by
  induction ps with
  | nil => intro fs; rfl
  | cons p rest ih =>
    intro fs
    show (match safeCleanupOneE fs p with
          | .ok fs' => safeFileCleanupE fs' rest
          | .error e => .error e) = _
    rw [safeCleanupOneE_ok]
    exact ih (safeCleanupOne fs p)

lemma safeFileCleanup_idem (fs : FS) (ps : List Path) :
    safeFileCleanup (safeFileCleanup fs (some ps)) (some ps)
      = safeFileCleanup fs (some ps) := by
  apply safeFileCleanup_of_disjoint
  intro q hq
  exact ((mem_safeFileCleanup_some fs ps q).mp hq).2

lemma mem_cleanupTempFiles (fs : FS) (files : List UpFile) (q : Path) :
    q ∈ cleanupTempFiles fs files ↔ q ∈ fs ∧ ∀ f ∈ files, q ≠ f.path := by
  unfold cleanupTempFiles
  induction files generalizing fs with
  | nil => simp
  | cons f rest ih =>
    simp only [List.foldl_cons]
    have hstep : ∀ g : FS, q ∈ (if f.path ∈ g then g.filter (· ≠ f.path) else g)
        ↔ q ∈ g ∧ q ≠ f.path ∨ q ∈ g ∧ f.path ∉ g := by
      intro g
      by_cases h : f.path ∈ g
      · simp [h, List.mem_filter]
      · simp only [if_neg h]
        tauto
    rw [ih]
    constructor
    · rintro ⟨hmem, hrest⟩
      rcases (hstep fs).mp hmem with ⟨hq, hne⟩ | ⟨hq, habs⟩
      · exact ⟨hq, by
          intro g hg
          rcases List.mem_cons.mp hg with rfl | hg'
          · exact hne
          · exact hrest g hg'⟩
      · refine ⟨hq, ?_⟩
        intro g hg
        rcases List.mem_cons.mp hg with rfl | hg'
        · intro hqp; exact habs (hqp ▸ hq)
        · exact hrest g hg'
    · rintro ⟨hq, hall⟩
      refine ⟨(hstep fs).mpr (Or.inl ⟨hq, hall f (by simp)⟩), ?_⟩
      intro g hg
      exact hall g (List.mem_cons_of_mem f hg)

lemma cleanupTempFiles_of_disjoint (files : List UpFile) :
    ∀ gs : FS, (∀ f ∈ files, f.path ∉ gs) → cleanupTempFiles gs files = gs := by
  induction files with
  | nil => intro gs _; rfl
  | cons f rest ih =>
    intro gs hgs
    show (f :: rest).foldl _ gs = gs
    simp only [List.foldl_cons]
    have h1 : (if f.path ∈ gs then gs.filter (· ≠ f.path) else gs) = gs := by
      simp [hgs f (by simp)]
    rw [h1]
    exact ih gs (fun g hg => hgs g (List.mem_cons_of_mem f hg))

lemma cleanupTempFiles_idem (fs : FS) (files : List UpFile) :
    cleanupTempFiles (cleanupTempFiles fs files) files
      = cleanupTempFiles fs files := by
  apply cleanupTempFiles_of_disjoint
  intro f hf hmem
  exact ((mem_cleanupTempFiles fs files f.path).mp hmem).2 f hf rfl

/- ### Character-level models of the JS string operations

The runtime's `String.startsWith`, `splitOn`, `toLower` and `trim` work on
byte positions and do not reduce in the kernel, so the string operations
the controllers use are modelled character by character (with the same
semantics on the inputs involved: one-character separators, ASCII
extensions). -/

/-- JS `String.prototype.startsWith`. -/
def jsStartsWith (s pre : String) : Bool :=
  decide (s.data.take pre.data.length = pre.data)

/-- Split a character list at a separator character (JS `split` keeps
empty segments). -/
def splitChars (sep : Char) : List Char → List (List Char)
  | [] => [[]]
  | c :: cs =>
    if c = sep then [] :: splitChars sep cs
    else
      match splitChars sep cs with
      | [] => [[c]]
      | g :: gs => (c :: g) :: gs

/-- JS `String.prototype.split` with a one-character separator (the only
form the source uses: '/', '.', ','). -/
def jsSplit (s : String) (sep : Char) : List String :=
  (splitChars sep s.data).map String.mk

/-- `toLowerCase` on ASCII (which covers the file extensions involved). -/
def charLower (c : Char) : Char :=
  if 'A' ≤ c ∧ c ≤ 'Z' then Char.ofNat (c.toNat + 32) else c

/-- JS `String.prototype.toLowerCase`. -/
def jsToLower (s : String) : String := ⟨s.data.map charLower⟩

/-- JS `String.prototype.trim`. -/
def jsTrim (s : String) : String :=
  ⟨((s.data.dropWhile (·.isWhitespace)).reverse.dropWhile
    (·.isWhitespace)).reverse⟩

/- ### Remote Asset Gateway: `uploadToCloudinary` (press controller) -/

/-- `path.extname(filePath)`: the extension of the final path segment,
from its last dot (including the dot); empty for a segment with no dot or
with only a leading dot. -/
def extname (p : Path) : String :=
  let base := ((jsSplit p '/').getLastD "")
  match jsSplit base '.' with
  | [] => ""
  | [_] => ""
  | first :: rest =>
    if first = "" && rest.length = 1 then ""
    else "." ++ rest.getLastD ""

/-- The authoritative video-extension list of `uploadToCloudinary`. -/
def videoExtensions : List String := [".mp4", ".mov", ".avi", ".webm", ".mkv"]

/-- What `cloudinary.uploader.upload` resolves with. -/
structure CloudUploadResult where
  secure_url : String
  public_id : String
  resource_type : String
  format : String
  bytes : Nat
  width : Option Nat
  height : Option Nat
deriving DecidableEq, Repr

/-- Oracle for the press controller's remote calls:
`cloudUpload path folder resourceType` is what
`cloudinary.uploader.upload(path, {folder, resource_type, ...})`
resolves (`ok`) or rejects (`error`) with. -/
structure CloudOracle where
  cloudUpload : Path → String → String → Except String CloudUploadResult

/-- The object `uploadToCloudinary` returns on success. -/
structure UploadedInfo where
  url : String
  publicId : String
  format : String
  resourceType : String
  bytes : Nat
  width : Option Nat
  height : Option Nat
deriving DecidableEq, Repr

instance {ε α : Type} [DecidableEq ε] [DecidableEq α] :
    DecidableEq (Except ε α) := fun x y =>
  match x, y with
  | .ok a, .ok b =>
    if h : a = b then isTrue (by rw [h])
    else isFalse (fun hh => h (Except.ok.inj hh))
  | .ok _, .error _ => isFalse (fun hh => Except.noConfusion hh)
  | .error _, .ok _ => isFalse (fun hh => Except.noConfusion hh)
  | .error a, .error b =>
    if h : a = b then isTrue (by rw [h])
    else isFalse (fun hh => h (Except.error.inj hh))

/-- Result of one gateway upload: filesystem and remote-store state plus
the resolved value or rejection. -/
structure GatewayResult where
  fs : FS
  remote : Remote
  outcome : Except String UploadedInfo
deriving DecidableEq, Repr

/-- The resource-type classification of `uploadToCloudinary`:
`videoExtensions.includes(ext) ? 'video' : 'image'`. -/
def uploadResourceType (filePath : Path) : String :=
  if jsToLower (extname filePath) ∈ videoExtensions then "video" else "image"

/-- `uploadToCloudinary(filePath, folder)` from the press controller:
checks the staged file exists, classifies the resource type from the
extension, uploads, and then deletes the temp file with the tolerant
`try { access; unlink } catch` pattern — in *both* the success branch and
the failure branch (the failure branch rethrows the upload error after
deleting the temp file).  The inline temp-file deletion is the same
statement sequence as one `safeFileCleanup` iteration, so it is embedded
by `safeCleanupOne`. -/
def uploadToCloudinary (env : CloudOracle) (fs : FS) (remote : Remote)
    (filePath : Path) (folder : String) : GatewayResult :=
  match fsAccess fs filePath with
  | .error _ => ⟨fs, remote, .error ("File not found at path: " ++ filePath)⟩
  | .ok _ =>
    match env.cloudUpload filePath ("campaign2027/" ++ folder)
        (uploadResourceType filePath) with
    | .ok r =>
      ⟨safeCleanupOne fs filePath, remote ++ [r.public_id],
        .ok ⟨r.secure_url, r.public_id, r.format, r.resource_type, r.bytes,
             r.width, r.height⟩⟩
    | .error e =>
      ⟨safeCleanupOne fs filePath, remote, .error e⟩

lemma uploadToCloudinary_of_absent (env : CloudOracle) (fs : FS)
    (remote : Remote) (p : Path) (folder : String) (hp : p ∉ fs) :
    uploadToCloudinary env fs remote p folder
      = ⟨fs, remote, .error ("File not found at path: " ++ p)⟩ := by
  unfold uploadToCloudinary fsAccess
  simp [hp]

lemma uploadToCloudinary_of_ok (env : CloudOracle) (fs : FS)
    (remote : Remote) (p : Path) (folder : String) (r : CloudUploadResult)
    (hp : p ∈ fs)
    (hup : env.cloudUpload p ("campaign2027/" ++ folder)
      (uploadResourceType p) = .ok r) :
    uploadToCloudinary env fs remote p folder
      = ⟨fs.filter (· ≠ p), remote ++ [r.public_id],
          .ok ⟨r.secure_url, r.public_id, r.format, r.resource_type, r.bytes,
               r.width, r.height⟩⟩ := by
  unfold uploadToCloudinary fsAccess
  simp [hp, hup, safeCleanupOne_eq_filter]

lemma uploadToCloudinary_of_error (env : CloudOracle) (fs : FS)
    (remote : Remote) (p : Path) (folder : String) (e : String)
    (hp : p ∈ fs)
    (hup : env.cloudUpload p ("campaign2027/" ++ folder)
      (uploadResourceType p) = .error e) :
    uploadToCloudinary env fs remote p folder
      = ⟨fs.filter (· ≠ p), remote, .error e⟩ := by
  unfold uploadToCloudinary fsAccess
  simp [hp, hup, safeCleanupOne_eq_filter]

/-- `uploadMultipleToCloudinary(files, folder)`: `Promise.all` over
`uploadToCloudinary`, embedded sequentially; rejects with the first
rejection and otherwise resolves with one result per input file, in input
order. -/
def uploadMultipleToCloudinary (env : CloudOracle) (fs : FS) (remote : Remote) :
    List UpFile → String → FS × Remote × Except String (List UploadedInfo)
  | [], _ => (fs, remote, .ok [])
  | f :: rest, folder =>
    let r := uploadToCloudinary env fs remote f.path folder
    match r.outcome with
    | .error e => (r.fs, r.remote, .error e)
    | .ok info =>
      match uploadMultipleToCloudinary env r.fs r.remote rest folder with
      | (fs', remote', .error e) => (fs', remote', .error e)
      | (fs', remote', .ok infos) => (fs', remote', .ok (info :: infos))

lemma uploadToCloudinary_fs_subset (env : CloudOracle) (fs : FS)
    (remote : Remote) (p : Path) (folder : String) :
    ∀ q ∈ (uploadToCloudinary env fs remote p folder).fs, q ∈ fs := by
  intro q hq
  by_cases hp : p ∈ fs
  · rcases hup : env.cloudUpload p ("campaign2027/" ++ folder)
        (uploadResourceType p) with e | r
    · rw [uploadToCloudinary_of_error env fs remote p folder e hp hup] at hq
      exact (List.mem_filter.mp hq).1
    · rw [uploadToCloudinary_of_ok env fs remote p folder r hp hup] at hq
      exact (List.mem_filter.mp hq).1
  · rw [uploadToCloudinary_of_absent env fs remote p folder hp] at hq
    exact hq

lemma uploadToCloudinary_ok_not_mem (env : CloudOracle) (fs : FS)
    (remote : Remote) (p : Path) (folder : String) (info : UploadedInfo)
    (h : (uploadToCloudinary env fs remote p folder).outcome = .ok info) :
    p ∉ (uploadToCloudinary env fs remote p folder).fs := by
  by_cases hp : p ∈ fs
  · rcases hup : env.cloudUpload p ("campaign2027/" ++ folder)
        (uploadResourceType p) with e | r
    · rw [uploadToCloudinary_of_error env fs remote p folder e hp hup] at h
      exact absurd h (by simp)
    · rw [uploadToCloudinary_of_ok env fs remote p folder r hp hup]
      intro hmem
      have := (List.mem_filter.mp hmem).2
      simp at this
  · rw [uploadToCloudinary_of_absent env fs remote p folder hp] at h
    exact absurd h (by simp)

/- ### `createPress` (press controller) -/

/-- One attachment entry as `createPress` builds it:
`{...uploaded, type, filename, size}`. -/
structure Attachment where
  info : UploadedInfo
  type : String
  filename : String
  size : Nat
deriving DecidableEq, Repr

/-- Environment of one `createPress` request: the validation outcome, the
remote-upload oracle, and what `Press.create` resolves/rejects with. -/
structure PressEnv where
  validationErrors : List String
  cloud : CloudOracle
  pressCreate : Except String Unit

/-- The multipart fields `createPress` reads from `req.files`. -/
structure PressReq where
  featuredImage : Option UpFile
  attachments : List UpFile

structure PressResponse where
  status : Nat
  success : Bool
deriving DecidableEq, Repr

structure PressRunResult where
  fs : FS
  remote : Remote
  persisted : Bool
  resp : PressResponse
deriving Repr

/-- State after the attachment uploads of `createPress`: filesystem,
remote store, the still-to-clean list, and the resolved attachment list or
the first rejection. -/
structure AttachResult where
  fs : FS
  remote : Remote
  cleanup : List Path
  outcome : Except String (List Attachment)

/-- The `Promise.all(req.files.attachments.map(...))` block of
`createPress`, embedded sequentially: each attachment goes through
`uploadToCloudinary`; on success its path is filtered out of
`filesToCleanup`; the first rejection aborts the rest. -/
def uploadAttachments (env : CloudOracle) :
    List UpFile → FS → Remote → List Path → AttachResult
  | [], fs, remote, cleanup => ⟨fs, remote, cleanup, .ok []⟩
  | f :: rest, fs, remote, cleanup =>
    match uploadToCloudinary env fs remote f.path "press-releases/attachments" with
    | ⟨fs1, remote1, .error e⟩ => ⟨fs1, remote1, cleanup, .error e⟩
    | ⟨fs1, remote1, .ok info⟩ =>
      match uploadAttachments env rest fs1 remote1
          (cleanup.filter (· ≠ f.path)) with
      | ⟨fs2, remote2, cleanup2, .error e⟩ => ⟨fs2, remote2, cleanup2, .error e⟩
      | ⟨fs2, remote2, cleanup2, .ok atts⟩ =>
        ⟨fs2, remote2, cleanup2,
          .ok (⟨info,
                if jsStartsWith f.mimetype "video/" then "video" else "image",
                f.originalname, f.size⟩ :: atts)⟩

/-- The `finally` block of `createPress`:
`if (filesToCleanup.length > 0) await safeFileCleanup(filesToCleanup)`. -/
def finallyCleanup (fs : FS) (cleanup : List Path) : FS :=
  if cleanup.length > 0 then safeFileCleanup fs (some cleanup) else fs

/-- Continuation of `createPress` after the featured-image step:
attachment uploads, then `Press.create`; the catch block answers 400 on
any rejection (upload or persistence), the success path answers 201, and
the `finally` block cleans whatever is left in `filesToCleanup`. -/
def createPressRest (env : PressEnv) (fs : FS) (remote : Remote)
    (cleanup : List Path) (req : PressReq) : PressRunResult :=
  match uploadAttachments env.cloud req.attachments fs remote cleanup with
  | ⟨fs1, remote1, cleanup1, .error _⟩ =>
    ⟨finallyCleanup fs1 cleanup1, remote1, false, ⟨400, false⟩⟩
  | ⟨fs1, remote1, cleanup1, .ok _⟩ =>
    match env.pressCreate with
    | .error _ => ⟨finallyCleanup fs1 cleanup1, remote1, false, ⟨400, false⟩⟩
    | .ok _ => ⟨finallyCleanup fs1 cleanup1, remote1, true, ⟨201, true⟩⟩

/-- The staged paths of a `createPress` request, in the order
`filesToCleanup` is populated. -/
def pressStagedPaths (req : PressReq) : List Path :=
  (match req.featuredImage with | some f => [f.path] | none => [])
    ++ req.attachments.map (·.path)

/-- `createPress` from the press controller.  On validation failure it
returns 400 *before* `filesToCleanup` is populated, so the `finally`
block cleans nothing.  Otherwise the featured image and the attachments
are uploaded (each successful upload removes its path from
`filesToCleanup`, since `uploadToCloudinary` already deleted it), the
press document is created, and every rejection is answered with 400 by
the catch block. -/
def createPress (env : PressEnv) (fs : FS) (remote : Remote)
    (req : PressReq) : PressRunResult :=
  if env.validationErrors ≠ [] then
    ⟨finallyCleanup fs [], remote, false, ⟨400, false⟩⟩
  else
    match req.featuredImage with
    | some f =>
      match uploadToCloudinary env.cloud fs remote f.path
          "press-releases/featured" with
      | ⟨fs1, remote1, .error _⟩ =>
        ⟨finallyCleanup fs1 (pressStagedPaths req), remote1, false, ⟨400, false⟩⟩
      | ⟨fs1, remote1, .ok _⟩ =>
        createPressRest env fs1 remote1
          ((pressStagedPaths req).filter (· ≠ f.path)) req
    | none => createPressRest env fs remote (pressStagedPaths req) req

lemma uploadAttachments_cons_error (env : CloudOracle) (f : UpFile)
    (rest : List UpFile) (fs : FS) (remote : Remote) (cleanup : List Path)
    (fs1 : FS) (remote1 : Remote) (e : String)
    (hgw : uploadToCloudinary env fs remote f.path "press-releases/attachments"
      = ⟨fs1, remote1, .error e⟩) :
    uploadAttachments env (f :: rest) fs remote cleanup
      = ⟨fs1, remote1, cleanup, .error e⟩ := by
  unfold uploadAttachments
  rw [hgw]

lemma uploadAttachments_cons_ok (env : CloudOracle) (f : UpFile)
    (rest : List UpFile) (fs : FS) (remote : Remote) (cleanup : List Path)
    (fs1 : FS) (remote1 : Remote) (info : UploadedInfo)
    (hgw : uploadToCloudinary env fs remote f.path "press-releases/attachments"
      = ⟨fs1, remote1, .ok info⟩) :
    uploadAttachments env (f :: rest) fs remote cleanup
      = (match uploadAttachments env rest fs1 remote1
            (cleanup.filter (· ≠ f.path)) with
         | ⟨fs2, remote2, cleanup2, .error e⟩ =>
            ⟨fs2, remote2, cleanup2, .error e⟩
         | ⟨fs2, remote2, cleanup2, .ok atts⟩ =>
            ⟨fs2, remote2, cleanup2,
              .ok (⟨info,
                    if jsStartsWith f.mimetype "video/" then "video" else "image",
                    f.originalname, f.size⟩ :: atts)⟩) := by
  conv_lhs => unfold uploadAttachments
  rw [hgw]

lemma uploadAttachments_fs_subset (env : CloudOracle) (files : List UpFile) :
    ∀ fs remote cleanup,
      ∀ q ∈ (uploadAttachments env files fs remote cleanup).fs, q ∈ fs := by
  induction files with
  | nil => intro fs remote cleanup q hq; exact hq
  | cons f rest ih =>
    intro fs remote cleanup q hq
    rcases hgw : uploadToCloudinary env fs remote f.path
        "press-releases/attachments" with ⟨fs1, remote1, out⟩
    have hsub1 : ∀ x ∈ fs1, x ∈ fs := by
      intro x hx
      have := uploadToCloudinary_fs_subset env fs remote f.path
        "press-releases/attachments" x
      rw [hgw] at this
      exact this hx
    rcases out with e | info
    · rw [uploadAttachments_cons_error env f rest fs remote cleanup
        fs1 remote1 e hgw] at hq
      exact hsub1 q hq
    · rw [uploadAttachments_cons_ok env f rest fs remote cleanup
        fs1 remote1 info hgw] at hq
      rcases hua : uploadAttachments env rest fs1 remote1
          (cleanup.filter (· ≠ f.path)) with ⟨fs2, remote2, cleanup2, out2⟩
      have hsub2 : ∀ x ∈ fs2, x ∈ fs1 := by
        intro x hx
        have := ih fs1 remote1 (cleanup.filter (· ≠ f.path)) x
        rw [hua] at this
        exact this hx
      rw [hua] at hq
      rcases out2 with e | atts
      · exact hsub1 q (hsub2 q hq)
      · exact hsub1 q (hsub2 q hq)

lemma uploadAttachments_cleanup_or_gone (env : CloudOracle)
    (files : List UpFile) :
    ∀ fs remote cleanup p, p ∈ cleanup →
      p ∈ (uploadAttachments env files fs remote cleanup).cleanup
        ∨ p ∉ (uploadAttachments env files fs remote cleanup).fs := by
  induction files with
  | nil => intro fs remote cleanup p hp; exact Or.inl hp
  | cons f rest ih =>
    intro fs remote cleanup p hp
    rcases hgw : uploadToCloudinary env fs remote f.path
        "press-releases/attachments" with ⟨fs1, remote1, out⟩
    rcases out with e | info
    · rw [uploadAttachments_cons_error env f rest fs remote cleanup
        fs1 remote1 e hgw]
      exact Or.inl hp
    · rw [uploadAttachments_cons_ok env f rest fs remote cleanup
        fs1 remote1 info hgw]
      rcases hua : uploadAttachments env rest fs1 remote1
          (cleanup.filter (· ≠ f.path)) with ⟨fs2, remote2, cleanup2, out2⟩
      have hsub2 : ∀ x ∈ fs2, x ∈ fs1 := by
        intro x hx
        have := uploadAttachments_fs_subset env rest fs1 remote1
          (cleanup.filter (· ≠ f.path)) x
        rw [hua] at this
        exact this hx
      by_cases hpf : p = f.path
      · have hnot : f.path ∉ fs1 := by
          have := uploadToCloudinary_ok_not_mem env fs remote f.path
            "press-releases/attachments" info (by rw [hgw])
          rw [hgw] at this
          exact this
        rcases out2 with e | atts
        · right
          intro hmem
          exact hnot (hpf ▸ hsub2 p hmem)
        · right
          intro hmem
          exact hnot (hpf ▸ hsub2 p hmem)
      · have hp' : p ∈ cleanup.filter (· ≠ f.path) :=
          List.mem_filter.mpr ⟨hp, by simp [hpf]⟩
        have hrec := ih fs1 remote1 (cleanup.filter (· ≠ f.path)) p hp'
        rw [hua] at hrec
        rcases out2 with e | atts
        · exact hrec
        · exact hrec

lemma mem_finallyCleanup (fs : FS) (cleanup : List Path) (q : Path) :
    q ∈ finallyCleanup fs cleanup ↔ q ∈ fs ∧ q ∉ cleanup := by
  unfold finallyCleanup
  by_cases h : cleanup.length > 0
  · rw [if_pos h]
    exact mem_safeFileCleanup_some fs cleanup q
  · rw [if_neg h]
    have : cleanup = [] := List.eq_nil_of_length_eq_zero (by omega)
    simp [this]

lemma createPressRest_fs_eq (env : PressEnv) (fs : FS) (remote : Remote)
    (cleanup : List Path) (req : PressReq) :
    (createPressRest env fs remote cleanup req).fs
      = finallyCleanup
          (uploadAttachments env.cloud req.attachments fs remote cleanup).fs
          (uploadAttachments env.cloud req.attachments fs remote cleanup).cleanup := by
  unfold createPressRest
  rcases hua : uploadAttachments env.cloud req.attachments fs remote cleanup
    with ⟨fs1, remote1, cleanup1, out⟩
  rcases out with e | atts
  · rfl
  · rcases hpc : env.pressCreate with e | u <;> simp [hpc]

lemma createPressRest_cleanup_not_mem (env : PressEnv) (fs : FS)
    (remote : Remote) (cleanup : List Path) (req : PressReq) :
    ∀ p ∈ cleanup, p ∉ (createPressRest env fs remote cleanup req).fs := by
  intro p hp
  rw [createPressRest_fs_eq]
  intro hmem
  have hm := (mem_finallyCleanup _ _ p).mp hmem
  rcases uploadAttachments_cleanup_or_gone env.cloud req.attachments
      fs remote cleanup p hp with hin | hout
  · exact hm.2 hin
  · exact hout hm.1

lemma createPressRest_fs_subset (env : PressEnv) (fs : FS)
    (remote : Remote) (cleanup : List Path) (req : PressReq) :
    ∀ q ∈ (createPressRest env fs remote cleanup req).fs, q ∈ fs := by
  intro q hq
  rw [createPressRest_fs_eq] at hq
  have hm := (mem_finallyCleanup _ _ q).mp hq
  exact uploadAttachments_fs_subset env.cloud req.attachments
    fs remote cleanup q hm.1

lemma createPress_eq_none (env : PressEnv) (fs : FS) (remote : Remote)
    (req : PressReq) (hval : env.validationErrors = [])
    (hfi : req.featuredImage = none) :
    createPress env fs remote req
      = createPressRest env fs remote (pressStagedPaths req) req := by
  unfold createPress
  rw [if_neg (by simp [hval]), hfi]

lemma createPress_eq_some_error (env : PressEnv) (fs : FS) (remote : Remote)
    (req : PressReq) (f : UpFile) (fs1 : FS) (remote1 : Remote) (e : String)
    (hval : env.validationErrors = [])
    (hfi : req.featuredImage = some f)
    (hgw : uploadToCloudinary env.cloud fs remote f.path
      "press-releases/featured" = ⟨fs1, remote1, .error e⟩) :
    createPress env fs remote req
      = ⟨finallyCleanup fs1 (pressStagedPaths req), remote1, false,
          ⟨400, false⟩⟩ := by
  unfold createPress
  rw [if_neg (by simp [hval]), hfi]
  dsimp only
  rw [hgw]

lemma createPress_eq_some_ok (env : PressEnv) (fs : FS) (remote : Remote)
    (req : PressReq) (f : UpFile) (fs1 : FS) (remote1 : Remote)
    (info : UploadedInfo)
    (hval : env.validationErrors = [])
    (hfi : req.featuredImage = some f)
    (hgw : uploadToCloudinary env.cloud fs remote f.path
      "press-releases/featured" = ⟨fs1, remote1, .ok info⟩) :
    createPress env fs remote req
      = createPressRest env fs1 remote1
          ((pressStagedPaths req).filter (· ≠ f.path)) req := by
  unfold createPress
  rw [if_neg (by simp [hval]), hfi]
  dsimp only
  rw [hgw]

/-- After a `createPress` request that passed input validation, none of the
request's staged temp files remains on disk, whichever exit path was taken. -/
lemma createPress_staged_clean (env : PressEnv) (fs : FS) (remote : Remote)
    (req : PressReq) (hval : env.validationErrors = []) :
    ∀ p ∈ pressStagedPaths req, p ∉ (createPress env fs remote req).fs := by
  intro p hp
  rcases hfi : req.featuredImage with _ | f
  · rw [createPress_eq_none env fs remote req hval hfi]
    exact createPressRest_cleanup_not_mem env fs remote
      (pressStagedPaths req) req p hp
  · rcases hgw : uploadToCloudinary env.cloud fs remote f.path
        "press-releases/featured" with ⟨fs1, remote1, out⟩
    rcases out with e | info
    · rw [createPress_eq_some_error env fs remote req f fs1 remote1 e
        hval hfi hgw]
      intro hmem
      have hm := (mem_finallyCleanup fs1 (pressStagedPaths req) p).mp hmem
      exact hm.2 hp
    · rw [createPress_eq_some_ok env fs remote req f fs1 remote1 info
        hval hfi hgw]
      by_cases hpf : p = f.path
      · intro hmem
        have hnot : f.path ∉ fs1 := by
          have := uploadToCloudinary_ok_not_mem env.cloud fs remote f.path
            "press-releases/featured" info (by rw [hgw])
          rw [hgw] at this
          exact this
        have := createPressRest_fs_subset env fs1 remote1
          ((pressStagedPaths req).filter (· ≠ f.path)) req p hmem
        exact hnot (hpf ▸ this)
      · exact createPressRest_cleanup_not_mem env fs1 remote1
          ((pressStagedPaths req).filter (· ≠ f.path)) req p
          (List.mem_filter.mpr ⟨hp, by simp [hpf]⟩)

/- ### `uploadMedia` (media controller) -/

/-- `try { await fs.unlink(path) } catch (unlinkError) { log }`: the
tolerant unlink of the media controller's cleanup paths. -/
def unlinkSwallow (fs : FS) (p : Path) : FS :=
  match fsUnlink fs p with
  | .ok fs' => fs'
  | .error _ => fs

lemma unlinkSwallow_eq_filter (fs : FS) (p : Path) :
    unlinkSwallow fs p = fs.filter (· ≠ p) := by
  unfold unlinkSwallow fsUnlink
  by_cases h : p ∈ fs
  · simp [h]
  · simp only [if_neg h]
    symm
    apply List.filter_eq_self.mpr
    intro a ha
    simp only [ne_eq, decide_not, Bool.not_eq_true', decide_eq_false_iff_not]
    intro hap; exact h (hap ▸ ha)

/-- Body fields `uploadMedia` destructures from `req.body`; `none` models
an absent (or empty, hence falsy) field. -/
structure MediaBody where
  title : Option String
  description : Option String
  event : Option String
  tags : Option String
  featured : Option String
  published : Option String
  alt : Option String
  caption : Option String
deriving Repr

/-- What `cloudinary.uploader.upload` resolves with, as the media
controller reads it. -/
structure MediaCloudResult where
  secure_url : String
  public_id : String
  width : Option Nat
  height : Option Nat
  format : String
  duration : Option Nat
deriving DecidableEq, Repr

/-- Oracles for one `uploadMedia` request: the express-validator outcome,
the requesting admin user, and what the primary upload, the thumbnail
upload and `mediaItem.save()` resolve or reject with for the file at each
position of `req.files`. -/
structure MediaEnv where
  validationErrors : List String
  userId : String
  upload : Nat → Except String MediaCloudResult
  thumbUpload : Nat → Except String MediaCloudResult
  save : Nat → Except String Unit

/-- The `metadata` sub-document. -/
structure MediaMetadata where
  width : Option Nat
  height : Option Nat
  format : String
  size : Nat
  duration : Option Nat
deriving DecidableEq, Repr

/-- The `new Media({...})` document (`thumbMedium` is
`thumbnails.medium`, the only thumbnail size the controller sets). -/
structure MediaItem where
  title : String
  description : String
  type : String
  url : String
  publicId : String
  filename : String
  metadata : MediaMetadata
  thumbMedium : Option String
  event : Option String
  tags : List String
  featured : Bool
  published : Bool
  alt : String
  caption : String
  uploadedBy : String
deriving DecidableEq, Repr

/-- `file.mimetype.startsWith('video/') ? 'video' : 'image'`. -/
def mediaTypeOf (f : UpFile) : String :=
  if jsStartsWith f.mimetype "video/" then "video" else "image"

/-- The thumbnail step for the file at position `i`: only videos get a
thumbnail upload, and its rejection is caught and only logged
(`thumbnails` stays empty).  Returns `thumbnails.medium` and the remote
assets this step created. -/
def thumbStep (env : MediaEnv) (i : Nat) (f : UpFile) :
    Option String × List String :=
  if mediaTypeOf f = "video" then
    match env.thumbUpload i with
    | .ok tr => (some tr.secure_url, [tr.public_id])
    | .error _ => (none, [])
  else (none, [])

/-- The `new Media({...})` document built for file `f` from upload result
`cr` and the thumbnail step's URL. -/
def buildMediaItem (env : MediaEnv) (body : MediaBody) (f : UpFile)
    (cr : MediaCloudResult) (thumbMedium : Option String) : MediaItem where
  title := body.title.getD f.originalname
  description := body.description.getD ""
  type := mediaTypeOf f
  url := cr.secure_url
  publicId := cr.public_id
  filename := f.originalname
  metadata := ⟨cr.width, cr.height, cr.format, f.size, cr.duration⟩
  thumbMedium := thumbMedium
  event := body.event
  tags := (body.tags.map (fun t => (jsSplit t ',').map jsTrim)).getD []
  featured := body.featured == some "true"
  published := body.published == some "true"
  alt := body.alt.getD (body.title.getD f.originalname)
  caption := body.caption.getD ""
  uploadedBy := env.userId

/-- The remote assets created while processing the file at position `i`
(primary upload, plus the video thumbnail when that succeeded) — created
whether or not the later `save` succeeds. -/
def headAssets (env : MediaEnv) (i : Nat) (f : UpFile) : List String :=
  match env.upload i with
  | .ok cr => cr.public_id :: (thumbStep env i f).2
  | .error _ => []

/-- The documents the file at position `i` contributes to `uploadedMedia`:
one when both the upload and the save succeed, none otherwise. -/
def headSucc (env : MediaEnv) (body : MediaBody) (i : Nat) (f : UpFile) :
    List MediaItem :=
  match env.upload i with
  | .ok cr =>
    match env.save i with
    | .ok _ => [buildMediaItem env body f cr (thumbStep env i f).1]
    | .error _ => []
  | .error _ => []

/-- Loop state of `uploadMedia`: the filesystem, the remote store, and the
`uploadedMedia` array (each entry was `save`d just before being pushed). -/
structure MediaState where
  fs : FS
  remote : Remote
  uploadedMedia : List MediaItem
deriving DecidableEq, Repr

/-- One iteration of `for (const file of req.files)` in `uploadMedia`, for
the file at position `i`: upload to cloudinary (rejection → per-file catch:
log and tolerant unlink, continue); for videos try the thumbnail upload
(rejection swallowed); build the document; `save()` (rejection → per-file
catch: log, tolerant unlink, continue — the created remote assets are NOT
deleted); on success push to `uploadedMedia` and unlink the temp file (an
unlink rejection would land in the per-file catch, whose own unlink is
tolerant, so the net filesystem effect is the same tolerant removal). -/
def processOne (env : MediaEnv) (body : MediaBody) (i : Nat) (f : UpFile)
    (st : MediaState) : MediaState :=
  match env.upload i with
  | .error _ => ⟨unlinkSwallow st.fs f.path, st.remote, st.uploadedMedia⟩
  | .ok cr =>
    match env.save i with
    | .error _ =>
      ⟨unlinkSwallow st.fs f.path,
       st.remote ++ cr.public_id :: (thumbStep env i f).2,
       st.uploadedMedia⟩
    | .ok _ =>
      ⟨unlinkSwallow st.fs f.path,
       st.remote ++ cr.public_id :: (thumbStep env i f).2,
       st.uploadedMedia
         ++ [buildMediaItem env body f cr (thumbStep env i f).1]⟩

/-- The whole `for (const file of req.files)` loop, `i` being the position
of the first file of `files` in `req.files`. -/
def processFiles (env : MediaEnv) (body : MediaBody) :
    Nat → List UpFile → MediaState → MediaState
  | _, [], st => st
  | i, f :: rest, st =>
    processFiles env body (i + 1) rest (processOne env body i f st)

/-- The JSON response of `uploadMedia` (`data` is the populated
`uploadedMedia` array; population only annotates references, modelled as
the identity). -/
structure MediaResponse where
  status : Nat
  success : Bool
  message : String
  data : List MediaItem
deriving DecidableEq, Repr

structure MediaRun where
  fs : FS
  remote : Remote
  resp : MediaResponse
deriving DecidableEq, Repr

/-- `uploadMedia` from the media controller: 400 on validation errors or an
empty `req.files` (in both cases before any upload — and without deleting
the staged files); otherwise the per-file loop, then 500 when
`uploadedMedia` stayed empty and 201 otherwise. -/
def uploadMedia (env : MediaEnv) (body : MediaBody) (files : List UpFile)
    (fs : FS) (remote : Remote) : MediaRun :=
  if env.validationErrors ≠ [] then
    ⟨fs, remote, ⟨400, false, "Validation failed", []⟩⟩
  else if files.isEmpty then
    ⟨fs, remote, ⟨400, false, "No files uploaded", []⟩⟩
  else
    match processFiles env body 0 files ⟨fs, remote, []⟩ with
    | ⟨fs1, remote1, []⟩ =>
      ⟨fs1, remote1, ⟨500, false, "Failed to upload any media files", []⟩⟩
    | ⟨fs1, remote1, m :: ms⟩ =>
      ⟨fs1, remote1,
        ⟨201, true,
         "Successfully uploaded " ++ toString (m :: ms).length
           ++ " media item(s)",
         m :: ms⟩⟩

/-- The entries of `uploadedMedia` over a whole file list, in input
order. -/
def collectSucc (env : MediaEnv) (body : MediaBody) :
    Nat → List UpFile → List MediaItem
  | _, [] => []
  | i, f :: rest =>
    headSucc env body i f ++ collectSucc env body (i + 1) rest

/-- The remote assets created over a whole file list. -/
def createdAssets (env : MediaEnv) : Nat → List UpFile → List String
  | _, [] => []
  | i, f :: rest => headAssets env i f ++ createdAssets env (i + 1) rest

lemma processOne_eq (env : MediaEnv) (body : MediaBody) (i : Nat)
    (f : UpFile) (st : MediaState) :
    processOne env body i f st
      = ⟨st.fs.filter (· ≠ f.path),
         st.remote ++ headAssets env i f,
         st.uploadedMedia ++ headSucc env body i f⟩ := by
  unfold processOne headAssets headSucc
  rcases hu : env.upload i with e | cr
  · simp [unlinkSwallow_eq_filter]
  · rcases hs : env.save i with e | u <;>
      simp [unlinkSwallow_eq_filter]

lemma processFiles_uploadedMedia (env : MediaEnv) (body : MediaBody)
    (files : List UpFile) :
    ∀ i st, (processFiles env body i files st).uploadedMedia
      = st.uploadedMedia ++ collectSucc env body i files := by
  induction files with
  | nil => intro i st; simp [processFiles, collectSucc]
  | cons f rest ih =>
    intro i st
    show (processFiles env body (i + 1) rest
      (processOne env body i f st)).uploadedMedia = _
    rw [ih (i + 1) (processOne env body i f st), processOne_eq]
    simp [collectSucc]

lemma processFiles_remote (env : MediaEnv) (body : MediaBody)
    (files : List UpFile) :
    ∀ i st, (processFiles env body i files st).remote
      = st.remote ++ createdAssets env i files := by
  induction files with
  | nil => intro i st; simp [processFiles, createdAssets]
  | cons f rest ih =>
    intro i st
    show (processFiles env body (i + 1) rest
      (processOne env body i f st)).remote = _
    rw [ih (i + 1) (processOne env body i f st), processOne_eq]
    simp [createdAssets]

lemma processFiles_mem_fs (env : MediaEnv) (body : MediaBody)
    (files : List UpFile) :
    ∀ i st q, q ∈ (processFiles env body i files st).fs
      ↔ q ∈ st.fs ∧ ∀ f ∈ files, q ≠ f.path := by
  induction files with
  | nil => intro i st q; simp [processFiles]
  | cons f rest ih =>
    intro i st q
    show q ∈ (processFiles env body (i + 1) rest
      (processOne env body i f st)).fs ↔ _
    rw [ih (i + 1) (processOne env body i f st), processOne_eq]
    simp only [List.mem_filter, List.mem_cons]
    constructor
    · rintro ⟨⟨hq, hne⟩, hrest⟩
      refine ⟨hq, ?_⟩
      intro g hg
      rcases hg with rfl | hg'
      · simpa using hne
      · exact hrest g hg'
    · rintro ⟨hq, hall⟩
      exact ⟨⟨hq, by simpa using hall f (Or.inl rfl)⟩,
        fun g hg => hall g (Or.inr hg)⟩

lemma uploadMedia_eq_of_run (env : MediaEnv) (body : MediaBody)
    (files : List UpFile) (fs : FS) (remote : Remote)
    (hval : env.validationErrors = []) (hne : files ≠ []) :
    uploadMedia env body files fs remote
      = ⟨(processFiles env body 0 files ⟨fs, remote, []⟩).fs,
         (processFiles env body 0 files ⟨fs, remote, []⟩).remote,
         if collectSucc env body 0 files = [] then
           ⟨500, false, "Failed to upload any media files", []⟩
         else
           ⟨201, true,
            "Successfully uploaded "
              ++ toString (collectSucc env body 0 files).length
              ++ " media item(s)",
            collectSucc env body 0 files⟩⟩ := by
  unfold uploadMedia
  rw [if_neg (by simp [hval]), if_neg (by simpa using hne)]
  have hm := processFiles_uploadedMedia env body files 0 ⟨fs, remote, []⟩
  rcases hpf : processFiles env body 0 files ⟨fs, remote, []⟩
    with ⟨fs1, remote1, l⟩
  rw [hpf] at hm
  simp only at hm
  rw [List.nil_append] at hm
  rcases l with _ | ⟨m, ms⟩
  · rw [if_pos hm.symm]
  · rw [if_neg (by rw [← hm]; simp)]
    rw [← hm]

/- ### `deleteMedia` (media controller) -/

/-- The fields of a stored media document that `deleteMedia` reads. -/
structure MediaDoc where
  publicId : Option String
  type : String
  thumbnails : List (String × String)
deriving DecidableEq, Repr

/-- Oracles for one `deleteMedia` request: the `findById` result, which
`cloudinary.uploader.destroy` calls reject, and what `findByIdAndDelete`
resolves/rejects with. -/
structure DeleteEnv where
  lookup : Option MediaDoc
  destroyFails : String → Bool
  dbDelete : Except String Unit

/-- `cloudinary.uploader.destroy(publicId, ...)` as `deleteMedia` calls it:
the rejection behaviour comes from the oracle; a resolving call removes the
identifier from the remote store (per the store's contract, spec §4.2). -/
def cloudinaryDestroyCall (env : DeleteEnv) (remote : Remote) (id : String) :
    Remote × Except String Unit :=
  if env.destroyFails id then (remote, .error "destroy failed")
  else (remote.filter (· ≠ id), .ok ())

/-- `url.split('/').pop().split('.')[0]` — the thumbnail public-id parsing
of `deleteMedia`. -/
def thumbPublicId (url : String) : String :=
  (jsSplit ((jsSplit url '/').getLastD "") '.').headD ""

/-- The `for (const [size, url] of Object.entries(mediaItem.thumbnails))`
loop of `deleteMedia`: each destroy sits in its own inner try/catch, so a
rejection is logged and the loop continues. -/
def destroyThumbs (env : DeleteEnv) :
    List (String × String) → Remote → Remote
  | [], remote => remote
  | (_, url) :: rest, remote =>
    destroyThumbs env rest
      (cloudinaryDestroyCall env remote
        ("campaign2027/media/thumbnails/" ++ thumbPublicId url)).1

/-- The outer cloudinary try-block of `deleteMedia`: destroy the primary
asset when `publicId` is set — a rejection there jumps to the catch, which
only logs, skipping the thumbnail loop — then destroy the thumbnails when
the document has any. -/
def deleteMediaCloudPhase (env : DeleteEnv) (m : MediaDoc) (remote : Remote) :
    Remote :=
  match m.publicId with
  | some pid =>
    match cloudinaryDestroyCall env remote pid with
    | (remote1, .error _) => remote1
    | (remote1, .ok _) =>
      if m.thumbnails.length > 0 then destroyThumbs env m.thumbnails remote1
      else remote1
  | none =>
    if m.thumbnails.length > 0 then destroyThumbs env m.thumbnails remote
    else remote

structure DeleteResult where
  status : Nat
  success : Bool
  dbDeleted : Bool
deriving DecidableEq, Repr

/-- `deleteMedia` from the media controller: 404 when the document does not
exist; otherwise the cloudinary phase (every rejection in it is caught and
logged), then `findByIdAndDelete` runs unconditionally; only a *database*
rejection yields 500. -/
def deleteMedia (env : DeleteEnv) (remote : Remote) : Remote × DeleteResult :=
  match env.lookup with
  | none => (remote, ⟨404, false, false⟩)
  | some m =>
    match env.dbDelete with
    | .error _ => (deleteMediaCloudPhase env m remote, ⟨500, false, false⟩)
    | .ok _ => (deleteMediaCloudPhase env m remote, ⟨200, true, true⟩)

lemma destroyThumbs_all_fail (env : DeleteEnv)
    (hfail : ∀ id, env.destroyFails id = true) :
    ∀ thumbs remote, destroyThumbs env thumbs remote = remote := by
  intro thumbs
  induction thumbs with
  | nil => intro remote; rfl
  | cons t rest ih =>
    intro remote
    rcases t with ⟨size, url⟩
    show destroyThumbs env rest
      (cloudinaryDestroyCall env remote
        ("campaign2027/media/thumbnails/" ++ thumbPublicId url)).1 = remote
    rw [show (cloudinaryDestroyCall env remote
        ("campaign2027/media/thumbnails/" ++ thumbPublicId url)).1 = remote by
      unfold cloudinaryDestroyCall
      rw [if_pos (hfail _)]]
    exact ih remote

lemma deleteMediaCloudPhase_all_fail (env : DeleteEnv) (m : MediaDoc)
    (remote : Remote) (hfail : ∀ id, env.destroyFails id = true) :
    deleteMediaCloudPhase env m remote = remote := by
  unfold deleteMediaCloudPhase
  rcases hpid : m.publicId with _ | pid
  · dsimp only
    by_cases h : m.thumbnails.length > 0
    · rw [if_pos h, destroyThumbs_all_fail env hfail]
    · rw [if_neg h]
  · dsimp only
    rw [show cloudinaryDestroyCall env remote pid
        = (remote, .error "destroy failed") from by
      unfold cloudinaryDestroyCall
      rw [if_pos (hfail pid)]]

/- ### press routes: `POST /api/press/upload-media` -/

/-- The names in the press controller's `module.exports` (server.js):
`uploadMedia` is not among them. -/
def pressControllerExports : List String :=
  ["getAllPress", "getPressById", "createPress", "updatePress",
   "deletePress", "getLatestPress", "searchPress", "getPressStats",
   "toggleFeatured", "deleteAttachment", "getPressByType"]

structure RouteResponse where
  status : Nat
  success : Bool
  message : String
deriving DecidableEq, Repr

/-- The `POST /upload-media` route handler (press routes): it guards
`if (!press.uploadMedia) throw`, and the catch answers 500.  `dispatch`
abstracts the call `press.uploadMedia(req, res, next)` that would run if
the controller exported that name. -/
def uploadMediaRoute (dispatch : String → RouteResponse) (req : String) :
    RouteResponse :=
  if "uploadMedia" ∈ pressControllerExports then dispatch req
  else ⟨500, false, "Internal server error"⟩

/- ### upload middleware: `handleUploadError` -/

/-- The error classes `handleUploadError` distinguishes: the multer error
codes, the file filter's unsupported-type error (recognised by its
message), and anything else. -/
inductive UploadMWError where
  | limitFileSize
  | limitFileCount
  | limitUnexpectedFile
  | multerOther (msg : String)
  | unsupportedType (msg : String)
  | other (msg : String)
deriving DecidableEq, Repr

/-- Result of `handleUploadError`: the filesystem after the cleanup and
either a response or `none` for delegation to `next(error)`. -/
structure MWResult where
  fs : FS
  response : Option RouteResponse
deriving DecidableEq, Repr

/-- `handleUploadError(error, req, res, next)` from the upload middleware:
always cleans the staged files first; answers 400 for every multer error
and for the unsupported-file-type error; any other error goes to `next`. -/
def handleUploadError (fs : FS) (files : List UpFile) :
    UploadMWError → MWResult
  | .limitFileSize =>
    ⟨cleanupTempFiles fs files,
     some ⟨400, false, "File too large. Maximum size is 100MB"⟩⟩
  | .limitFileCount =>
    ⟨cleanupTempFiles fs files,
     some ⟨400, false, "Too many files. Maximum is 10 files"⟩⟩
  | .limitUnexpectedFile =>
    ⟨cleanupTempFiles fs files, some ⟨400, false, "Unexpected file field"⟩⟩
  | .multerOther msg =>
    ⟨cleanupTempFiles fs files, some ⟨400, false, "Upload error: " ++ msg⟩⟩
  | .unsupportedType msg =>
    ⟨cleanupTempFiles fs files, some ⟨400, false, msg⟩⟩
  | .other _ => ⟨cleanupTempFiles fs files, none⟩

/- ### Supporting lemmas for the claims -/

/-- Whether an `Except` is a resolution (promise fulfilled). -/
def isOkE {ε α : Type} : Except ε α → Bool
  | .ok _ => true
  | .error _ => false

lemma headSucc_upload_error (env : MediaEnv) (body : MediaBody) (i : Nat)
    (f : UpFile) (e : String) (h : env.upload i = .error e) :
    headSucc env body i f = [] := by
  unfold headSucc
  rw [h]

lemma headSucc_save_error (env : MediaEnv) (body : MediaBody) (i : Nat)
    (f : UpFile) (cr : MediaCloudResult) (e : String)
    (h : env.upload i = .ok cr) (h2 : env.save i = .error e) :
    headSucc env body i f = [] := by
  unfold headSucc
  rw [h, h2]

lemma headSucc_ok (env : MediaEnv) (body : MediaBody) (i : Nat)
    (f : UpFile) (cr : MediaCloudResult)
    (h : env.upload i = .ok cr) (h2 : env.save i = .ok ()) :
    headSucc env body i f
      = [buildMediaItem env body f cr (thumbStep env i f).1] := by
  unfold headSucc
  rw [h, h2]

lemma headAssets_upload_error (env : MediaEnv) (i : Nat) (f : UpFile)
    (e : String) (h : env.upload i = .error e) :
    headAssets env i f = [] := by
  unfold headAssets
  rw [h]

lemma headAssets_upload_ok (env : MediaEnv) (i : Nat) (f : UpFile)
    (cr : MediaCloudResult) (h : env.upload i = .ok cr) :
    headAssets env i f = cr.public_id :: (thumbStep env i f).2 := by
  unfold headAssets
  rw [h]

lemma thumbStep_video_error (env : MediaEnv) (i : Nat) (f : UpFile)
    (e : String) (hv : mediaTypeOf f = "video")
    (ht : env.thumbUpload i = .error e) :
    thumbStep env i f = (none, []) := by
  unfold thumbStep
  rw [if_pos hv, ht]

lemma collectSucc_nil_of_save_fail (env : MediaEnv) (body : MediaBody) :
    ∀ (files : List UpFile) (i : Nat),
      (∀ j < files.length, isOkE (env.save (i + j)) = false) →
      collectSucc env body i files = [] := by
  intro files
  induction files with
  | nil => intro i _; rfl
  | cons f rest ih =>
    intro i hsv
    show headSucc env body i f ++ collectSucc env body (i + 1) rest = []
    have h0 : isOkE (env.save i) = false := by
      have := hsv 0 (by simp)
      simpa using this
    have hhead : headSucc env body i f = [] := by
      rcases hu : env.upload i with e | cr
      · exact headSucc_upload_error env body i f e hu
      · rcases hs : env.save i with e | u
        · exact headSucc_save_error env body i f cr e hu hs
        · rw [hs] at h0
          simp [isOkE] at h0
    rw [hhead, List.nil_append]
    apply ih
    intro j hj
    have := hsv (j + 1) (by simpa using Nat.succ_lt_succ hj)
    have harith : i + (j + 1) = i + 1 + j := by omega
    rwa [harith] at this

lemma createdAssets_cons (env : MediaEnv) (i : Nat) (f : UpFile)
    (rest : List UpFile) :
    createdAssets env i (f :: rest)
      = headAssets env i f ++ createdAssets env (i + 1) rest := rfl

lemma createdAssets_ne_nil (env : MediaEnv) (i : Nat) (f : UpFile)
    (rest : List UpFile) (cr : MediaCloudResult)
    (h : env.upload i = .ok cr) :
    createdAssets env i (f :: rest) ≠ [] := by
  rw [createdAssets_cons, headAssets_upload_ok env i f cr h]
  simp

lemma collectSucc_filenames_sublist (env : MediaEnv) (body : MediaBody) :
    ∀ (files : List UpFile) (i : Nat),
      ((collectSucc env body i files).map (·.filename)).Sublist
        (files.map (·.originalname)) := by
  intro files
  induction files with
  | nil => intro i; simp [collectSucc]
  | cons f rest ih =>
    intro i
    show ((headSucc env body i f ++ collectSucc env body (i + 1) rest).map
      (·.filename)).Sublist (f.originalname :: rest.map (·.originalname))
    rw [List.map_append]
    have htail := ih (i + 1)
    rcases hu : env.upload i with e | cr
    · rw [headSucc_upload_error env body i f e hu]
      exact List.Sublist.cons f.originalname (by simpa using htail)
    · rcases hs : env.save i with e | u
      · rw [headSucc_save_error env body i f cr e hu hs]
        exact List.Sublist.cons f.originalname (by simpa using htail)
      · rcases u
        rw [headSucc_ok env body i f cr hu hs]
        have : ([buildMediaItem env body f cr (thumbStep env i f).1].map
            (·.filename)) = [f.originalname] := rfl
        rw [this]
        exact List.Sublist.cons₂ f.originalname htail

lemma uploadMedia_val_fail (env : MediaEnv) (body : MediaBody)
    (files : List UpFile) (fs : FS) (remote : Remote)
    (h : env.validationErrors ≠ []) :
    uploadMedia env body files fs remote
      = ⟨fs, remote, ⟨400, false, "Validation failed", []⟩⟩ := by
  unfold uploadMedia
  rw [if_pos h]

lemma uploadMedia_no_files (env : MediaEnv) (body : MediaBody)
    (fs : FS) (remote : Remote) (hval : env.validationErrors = []) :
    uploadMedia env body [] fs remote
      = ⟨fs, remote, ⟨400, false, "No files uploaded", []⟩⟩ := by
  unfold uploadMedia
  rw [if_neg (by simp [hval]), if_pos (by simp)]

lemma uploadMultiple_cons_error (env : CloudOracle) (f : UpFile)
    (rest : List UpFile) (fs : FS) (remote : Remote) (folder : String)
    (fs1 : FS) (remote1 : Remote) (e : String)
    (h : uploadToCloudinary env fs remote f.path folder
      = ⟨fs1, remote1, .error e⟩) :
    uploadMultipleToCloudinary env fs remote (f :: rest) folder
      = (fs1, remote1, .error e) := by
  unfold uploadMultipleToCloudinary
  rw [h]

lemma uploadMultiple_cons_ok (env : CloudOracle) (f : UpFile)
    (rest : List UpFile) (fs : FS) (remote : Remote) (folder : String)
    (fs1 : FS) (remote1 : Remote) (info : UploadedInfo)
    (h : uploadToCloudinary env fs remote f.path folder
      = ⟨fs1, remote1, .ok info⟩) :
    uploadMultipleToCloudinary env fs remote (f :: rest) folder
      = (match uploadMultipleToCloudinary env fs1 remote1 rest folder with
         | (fs2, remote2, .error e) => (fs2, remote2, .error e)
         | (fs2, remote2, .ok infos) => (fs2, remote2, .ok (info :: infos))) := by
  conv_lhs => unfold uploadMultipleToCloudinary
  rw [h]

lemma uploadMultiple_length (env : CloudOracle) :
    ∀ (files : List UpFile) (fs : FS) (remote : Remote) (folder : String),
      Except.map (fun l => l.length)
          (uploadMultipleToCloudinary env fs remote files folder).2.2
        = Except.map (fun _ => files.length)
          (uploadMultipleToCloudinary env fs remote files folder).2.2 := by
  intro files
  induction files with
  | nil => intro fs remote folder; rfl
  | cons f rest ih =>
    intro fs remote folder
    rcases hgw : uploadToCloudinary env fs remote f.path folder
      with ⟨fs1, remote1, out⟩
    rcases out with e | info
    · rw [uploadMultiple_cons_error env f rest fs remote folder
        fs1 remote1 e hgw]
      rfl
    · rw [uploadMultiple_cons_ok env f rest fs remote folder
        fs1 remote1 info hgw]
      have := ih fs1 remote1 folder
      rcases hum : uploadMultipleToCloudinary env fs1 remote1 rest folder
        with ⟨fs2, remote2, out2⟩
      rw [hum] at this
      rcases out2 with e | infos
      · rfl
      · simp only [Except.map] at this ⊢
        simp at this
        simp [this]

lemma createPressRest_remote_eq (env : PressEnv) (fs : FS) (remote : Remote)
    (cleanup : List Path) (req : PressReq) :
    (createPressRest env fs remote cleanup req).remote
      = (uploadAttachments env.cloud req.attachments fs remote cleanup).remote := by
  unfold createPressRest
  rcases hua : uploadAttachments env.cloud req.attachments fs remote cleanup
    with ⟨fs1, remote1, cleanup1, out⟩
  rcases out with e | atts
  · rfl
  · rcases hpc : env.pressCreate with e | u <;> simp [hpc]

lemma createPressRest_of_create_error (env : PressEnv) (fs : FS)
    (remote : Remote) (cleanup : List Path) (req : PressReq)
    (fs1 : FS) (remote1 : Remote) (cleanup1 : List Path)
    (atts : List Attachment) (e : String)
    (hua : uploadAttachments env.cloud req.attachments fs remote cleanup
      = ⟨fs1, remote1, cleanup1, .ok atts⟩)
    (hpc : env.pressCreate = .error e) :
    createPressRest env fs remote cleanup req
      = ⟨finallyCleanup fs1 cleanup1, remote1, false, ⟨400, false⟩⟩ := by
  unfold createPressRest
  rw [hua]
  dsimp only
  rw [hpc]

/- ### Concrete fixtures -/

/-- A gateway oracle whose remote store rejects every upload. -/
def failingCloud : CloudOracle := ⟨fun _ _ _ => .error "network error"⟩

/-- A request body with every optional field absent. -/
def emptyBody : MediaBody := ⟨none, none, none, none, none, none, none, none⟩

def fileA : UpFile := ⟨"uploads/temp/1-a.jpg", "a.jpg", "image/jpeg", 1000⟩
def fileB : UpFile := ⟨"uploads/temp/2-b.jpg", "b.jpg", "image/jpeg", 2000⟩
def fileV : UpFile := ⟨"uploads/temp/9-v.mp4", "v.mp4", "video/mp4", 50000⟩
def file1 : UpFile := ⟨"uploads/temp/11-f1.jpg", "f1.jpg", "image/jpeg", 10⟩
def file2 : UpFile := ⟨"uploads/temp/12-f2.jpg", "f2.jpg", "image/jpeg", 20⟩
def file3 : UpFile := ⟨"uploads/temp/13-f3.jpg", "f3.jpg", "image/jpeg", 30⟩

def crA : MediaCloudResult :=
  ⟨"https://res.cloudinary.com/a1", "asset1", some 100, some 80, "jpg", none⟩
def crB : MediaCloudResult :=
  ⟨"https://res.cloudinary.com/a2", "asset2", some 10, some 8, "jpg", none⟩
def crV : MediaCloudResult :=
  ⟨"https://res.cloudinary.com/v1", "vid1", some 1280, some 720, "mp4", some 12⟩
def crP0 : MediaCloudResult :=
  ⟨"https://res.cloudinary.com/p0", "pub0", none, none, "jpg", none⟩
def crP2 : MediaCloudResult :=
  ⟨"https://res.cloudinary.com/p2", "pub2", none, none, "jpg", none⟩

/-- One-file request: upload succeeds, persistence rejects. -/
def envSaveFail : MediaEnv :=
  ⟨[], "admin1", fun _ => .ok crA, fun _ => .error "no thumbnail",
   fun _ => .error "db down"⟩

/-- Same oracles, but express-validator rejected the request. -/
def envValFail : MediaEnv :=
  ⟨["Title is required"], "admin1", fun _ => .ok crA,
   fun _ => .error "no thumbnail", fun _ => .error "db down"⟩

/-- Two uploads succeed, every save rejects (persistence outage). -/
def envOutage : MediaEnv :=
  ⟨[], "admin1", fun i => if i = 0 then .ok crA else .ok crB,
   fun _ => .error "no thumbnail", fun _ => .error "db outage"⟩

/-- Three files: only the second upload rejects; saves succeed. -/
def envSecondFails : MediaEnv :=
  ⟨[], "admin1",
   fun i => if i = 0 then .ok crP0
     else if i = 1 then .error "remote store rejected" else .ok crP2,
   fun _ => .error "no thumbnail", fun _ => .ok ()⟩

/-- One video: upload succeeds, thumbnail upload rejects, save succeeds. -/
def envVideoThumbFail : MediaEnv :=
  ⟨[], "admin1", fun _ => .ok crV,
   fun _ => .error "thumbnail generation failed", fun _ => .ok ()⟩

/-- Press environment whose `Press.create` rejects. -/
def pressEnvCreateFail : PressEnv := ⟨[], failingCloud, .error "db outage"⟩

/-- Press request with no files. -/
def pressReqEmpty : PressReq := ⟨none, []⟩

/-- A delete request whose remote-store destroy calls all reject. -/
def delEnvAllFail : DeleteEnv :=
  ⟨some ⟨some "asset9", "video",
     [("medium", "https://res.cloudinary.com/thumb_asset9.jpg")]⟩,
   fun _ => true, .ok ()⟩

lemma filter_ne_idem (l : List String) (id : String) :
    (l.filter (· ≠ id)).filter (· ≠ id) = l.filter (· ≠ id) :=
  List.filter_eq_self.mpr (fun _ ha => (List.mem_filter.mp ha).2)

/- ## The claims -/

/-- C6: calling `release` (staging delete: `safeFileCleanup`,
`cleanupTempFiles`) or `Gateway.delete` (`deleteFromCloudinary`) twice on
the same identifier never raises, the second call is a no-op, and deleting
an already-deleted local path (not-found) is treated as success. -/
theorem C6_idempotent_release_delete :
    (∀ (fs : FS) (ps : List Path),
      safeFileCleanupE fs ps = .ok (safeFileCleanup fs (some ps))
      ∧ safeFileCleanup (safeFileCleanup fs (some ps)) (some ps)
          = safeFileCleanup fs (some ps))
    ∧ (∀ (fs : FS) (p : Path), p ∉ fs → safeCleanupOne fs p = fs)
    ∧ (∀ (fs : FS) (files : List UpFile),
        cleanupTempFiles (cleanupTempFiles fs files) files
          = cleanupTempFiles fs files)
    ∧ (∀ (store : Remote) (id : String),
        deleteFromCloudinary store id = .ok (store.filter (· ≠ id))
        ∧ deleteFromCloudinary (store.filter (· ≠ id)) id
            = .ok (store.filter (· ≠ id))) := by
  refine ⟨fun fs ps => ⟨safeFileCleanupE_ok ps fs, safeFileCleanup_idem fs ps⟩,
          fun fs p hp => ?_,
          fun fs files => cleanupTempFiles_idem fs files,
          fun store id => ⟨rfl, ?_⟩⟩
  · unfold safeCleanupOne fsAccess
    rw [if_neg hp]
  · show Except.ok ((store.filter (· ≠ id)).filter (· ≠ id)) = _
    rw [filter_ne_idem]

/-- Witness for C6: releasing a path that is not on disk is a no-op. -/
theorem C6_idempotent_release_delete_witness :
    ("a" ∉ (["b"] : FS))
      ∧ safeCleanupOne ["b"] "a" = ["b"] :=
  ⟨by decide, C6_idempotent_release_delete.2.1 ["b"] "a" (by decide)⟩

/-- C9: every request to `POST /api/press/upload-media` is answered 500:
the press controller's exports contain no `uploadMedia`, so the route's
guard throws before any dispatch and the catch answers 500. -/
theorem C9_upload_media_route_always_500 :
    "uploadMedia" ∉ pressControllerExports
    ∧ ∀ (dispatch : String → RouteResponse) (req : String),
        uploadMediaRoute dispatch req
          = ⟨500, false, "Internal server error"⟩ := by
  refine ⟨by decide, fun dispatch req => ?_⟩
  unfold uploadMediaRoute
  rw [if_neg (by decide)]

/-- C10: `deleteMedia` removes the persisted record and responds success
even when every remote-store destroy call rejects: the rejections are
caught and logged, the database deletion runs unconditionally, and (since
every destroy rejected) the remote store is left untouched. -/
theorem C10_delete_media_tolerates_remote_failures (env : DeleteEnv)
    (remote : Remote) (m : MediaDoc)
    (hlook : env.lookup = some m)
    (hdb : env.dbDelete = .ok ())
    (hfail : ∀ id, env.destroyFails id = true) :
    deleteMedia env remote = (remote, ⟨200, true, true⟩) := by
  unfold deleteMedia
  rw [hlook]
  dsimp only
  rw [hdb]
  dsimp only
  rw [deleteMediaCloudPhase_all_fail env m remote hfail]

/-- Witness for C10 at a stored video document with one thumbnail, with
every destroy rejecting. -/
theorem C10_delete_media_witness :
    deleteMedia delEnvAllFail ["asset9"] = (["asset9"], ⟨200, true, true⟩) :=
  C10_delete_media_tolerates_remote_failures delEnvAllFail ["asset9"]
    ⟨some "asset9", "video",
      [("medium", "https://res.cloudinary.com/thumb_asset9.jpg")]⟩
    rfl rfl (fun _ => rfl)

/-- Counterexample to C1: (i) when the save rejects after a successful
upload, `uploadMedia` finishes (final cleanup included) with the remote
asset still in the store and no persisted MediaRecord — an orphaned
RemoteAsset; (ii) a request rejected by input validation returns 400 with
its staged temp file still on disk.  Both refute the no-leak invariant as
stated. -/
theorem C1_counterexample :
    (uploadMedia envSaveFail emptyBody [fileA] [fileA.path] []).remote
      = ["asset1"]
    ∧ (uploadMedia envSaveFail emptyBody [fileA] [fileA.path] []).resp.data
      = []
    ∧ (uploadMedia envSaveFail emptyBody [fileA] [fileA.path] []).resp.status
      = 500
    ∧ (uploadMedia envValFail emptyBody [fileA] [fileA.path] []).fs
      = [fileA.path]
    ∧ (uploadMedia envValFail emptyBody [fileA] [fileA.path] []).resp.status
      = 400 :=
  ⟨by decide, rfl, rfl, rfl, rfl⟩

/-- C1 (amended): for requests that pass input validation, after the
controller's guaranteed final cleanup no staged temp file of the request
remains on disk — in `uploadMedia` and in `createPress`.  (The other half
of the original claim — no remote asset without a persisted MediaRecord —
is refuted by the counterexample: persistence failures leak remote
assets.) -/
theorem C1_amended_no_staged_file_leak :
    (∀ (env : MediaEnv) (body : MediaBody) (files : List UpFile)
       (fs : FS) (remote : Remote),
      env.validationErrors = [] →
      ∀ f ∈ files, f.path ∉ (uploadMedia env body files fs remote).fs)
    ∧ (∀ (penv : PressEnv) (fs : FS) (remote : Remote) (req : PressReq),
        penv.validationErrors = [] →
        ∀ p ∈ pressStagedPaths req, p ∉ (createPress penv fs remote req).fs) := by
  constructor
  · intro env body files fs remote hval f hf
    rcases files with _ | ⟨g, rest⟩
    · cases hf
    · rw [uploadMedia_eq_of_run env body (g :: rest) fs remote hval (by simp)]
      dsimp only
      intro hmem
      exact ((processFiles_mem_fs env body (g :: rest) 0 ⟨fs, remote, []⟩
        f.path).mp hmem).2 f hf rfl
  · intro penv fs remote req hval p hp
    exact createPress_staged_clean penv fs remote req hval p hp

/-- Witness for C1 (amended): the one-file save-failure run leaves no
staged file behind. -/
theorem C1_amended_witness :
    fileA.path ∉ (uploadMedia envSaveFail emptyBody [fileA] [fileA.path] []).fs :=
  C1_amended_no_staged_file_leak.1 envSaveFail emptyBody [fileA]
    [fileA.path] [] rfl fileA (by simp)

/-- Counterexample to C2: two uploads succeed and both saves reject; the
response is 500 with no records exposed, but neither remote asset is
deleted — no rollback happens. -/
theorem C2_counterexample :
    (uploadMedia envOutage emptyBody [fileA, fileB]
        [fileA.path, fileB.path] []).resp.status = 500
    ∧ (uploadMedia envOutage emptyBody [fileA, fileB]
        [fileA.path, fileB.path] []).resp.data = []
    ∧ (uploadMedia envOutage emptyBody [fileA, fileB]
        [fileA.path, fileB.path] []).remote = ["asset1", "asset2"] :=
  ⟨rfl, rfl, by decide⟩

/-- C2 (amended): when every upload succeeds and the per-file persistence
step rejects for every file, `uploadMedia` answers 500 with no partial
MediaRecords exposed, but performs NO rollback: every remote asset created
in the batch remains in the remote store.  In `createPress`, a
`Press.create` rejection after successful attachment uploads is answered
400 (not 500) and likewise leaves the uploaded remote assets in place. -/
theorem C2_amended_no_rollback (env : MediaEnv) (body : MediaBody)
    (files : List UpFile) (fs : FS) (remote : Remote)
    (hval : env.validationErrors = [])
    (hne : files ≠ [])
    (hup : ∀ j < files.length, isOkE (env.upload j) = true)
    (hsv : ∀ j < files.length, isOkE (env.save j) = false) :
    (uploadMedia env body files fs remote).resp.status = 500
    ∧ (uploadMedia env body files fs remote).resp.data = []
    ∧ (uploadMedia env body files fs remote).remote
        = remote ++ createdAssets env 0 files
    ∧ createdAssets env 0 files ≠ []
    ∧ (∀ (penv : PressEnv) (fs' : FS) (remote' : Remote) (req : PressReq)
         (fs1 : FS) (remote1 : Remote) (cleanup1 : List Path)
         (atts : List Attachment) (e : String),
        penv.validationErrors = [] →
        req.featuredImage = none →
        uploadAttachments penv.cloud req.attachments fs' remote'
            (pressStagedPaths req) = ⟨fs1, remote1, cleanup1, .ok atts⟩ →
        penv.pressCreate = .error e →
        createPress penv fs' remote' req
          = ⟨finallyCleanup fs1 cleanup1, remote1, false, ⟨400, false⟩⟩) := by
  have hcoll : collectSucc env body 0 files = [] := by
    apply collectSucc_nil_of_save_fail env body files 0
    intro j hj
    simpa using hsv j hj
  have heq := uploadMedia_eq_of_run env body files fs remote hval hne
  rw [heq]
  refine ⟨by rw [if_pos hcoll], by rw [if_pos hcoll], ?_, ?_, ?_⟩
  · dsimp only
    exact processFiles_remote env body files 0 ⟨fs, remote, []⟩
  · rcases files with _ | ⟨f, rest⟩
    · exact absurd rfl hne
    · have h0 : isOkE (env.upload 0) = true := hup 0 (by simp)
      rcases hu : env.upload 0 with e | cr
      · rw [hu] at h0
        simp [isOkE] at h0
      · exact createdAssets_ne_nil env 0 f rest cr hu
  · intro penv fs' remote' req fs1 remote1 cleanup1 atts e
      hval' hfi hua hpc
    rw [createPress_eq_none penv fs' remote' req hval' hfi]
    exact createPressRest_of_create_error penv fs' remote'
      (pressStagedPaths req) req fs1 remote1 cleanup1 atts e hua hpc

/-- Witness for C2 (amended): the two-file outage run, plus the
`createPress` persistence failure answered 400. -/
theorem C2_amended_witness :
    (uploadMedia envOutage emptyBody [fileA, fileB]
        [fileA.path, fileB.path] []).resp.status = 500
    ∧ createPress pressEnvCreateFail [] [] pressReqEmpty
        = ⟨finallyCleanup [] [], [], false, ⟨400, false⟩⟩ :=
  ⟨(C2_amended_no_rollback envOutage emptyBody [fileA, fileB]
      [fileA.path, fileB.path] [] rfl (by simp) (by decide) (by decide)).1,
   (C2_amended_no_rollback envOutage emptyBody [fileA, fileB]
      [fileA.path, fileB.path] [] rfl (by simp) (by decide) (by decide)).2.2.2.2
     pressEnvCreateFail [] [] pressReqEmpty [] [] [] [] "db outage"
     rfl rfl rfl rfl⟩

/-- Counterexample to C3: a staged file whose remote upload fails is NOT
left on disk — `uploadToCloudinary`'s failure branch deletes the temp file
before rethrowing, so the filesystem ends empty instead of unchanged. -/
theorem C3_counterexample :
    (uploadToCloudinary failingCloud [fileA.path] [] fileA.path
        "press-releases").outcome = .error "network error"
    ∧ (uploadToCloudinary failingCloud [fileA.path] [] fileA.path
        "press-releases").fs = []
    ∧ ([] : FS) ≠ [fileA.path] :=
  ⟨by decide, by decide, by decide⟩

/-- C3 (amended): when the remote upload of a staged file fails,
`uploadToCloudinary` rethrows the error, creates no remote asset, and
deletes the staged file from disk (tolerating not-found) — the caller is
NOT left to decide staging cleanup. -/
theorem C3_amended_failed_upload_deletes_staged (env : CloudOracle)
    (fs : FS) (remote : Remote) (p : Path) (folder : String) (e : String)
    (hp : p ∈ fs)
    (hup : env.cloudUpload p ("campaign2027/" ++ folder)
      (uploadResourceType p) = .error e) :
    (uploadToCloudinary env fs remote p folder).outcome = .error e
    ∧ (uploadToCloudinary env fs remote p folder).fs = fs.filter (· ≠ p)
    ∧ (uploadToCloudinary env fs remote p folder).remote = remote := by
  rw [uploadToCloudinary_of_error env fs remote p folder e hp hup]
  exact ⟨rfl, rfl, rfl⟩

/-- Witness for C3 (amended) at the failing one-file fixture. -/
theorem C3_amended_witness :
    (uploadToCloudinary failingCloud [fileA.path] [] fileA.path
        "press-releases").outcome = .error "network error"
    ∧ (uploadToCloudinary failingCloud [fileA.path] [] fileA.path
        "press-releases").fs = [fileA.path].filter (· ≠ fileA.path)
    ∧ (uploadToCloudinary failingCloud [fileA.path] [] fileA.path
        "press-releases").remote = [] :=
  C3_amended_failed_upload_deletes_staged failingCloud [fileA.path] []
    fileA.path "press-releases" "network error" (by simp) rfl

/-- Counterexample to C4: in a 3-file batch whose second upload fails, the
response is 201 with exactly the two success documents, in order — it
carries NO entry of any kind (in particular no Failed outcome) for the
failing file. -/
theorem C4_counterexample :
    (uploadMedia envSecondFails emptyBody [file1, file2, file3]
        [file1.path, file2.path, file3.path] []).resp.status = 201
    ∧ ((uploadMedia envSecondFails emptyBody [file1, file2, file3]
        [file1.path, file2.path, file3.path] []).resp.data.map
          (·.filename)) = ["f1.jpg", "f3.jpg"]
    ∧ (uploadMedia envSecondFails emptyBody [file1, file2, file3]
        [file1.path, file2.path, file3.path] []).resp.data.length = 2
    ∧ "f2.jpg" ∉ ((uploadMedia envSecondFails emptyBody [file1, file2, file3]
        [file1.path, file2.path, file3.path] []).resp.data.map
          (·.filename)) :=
  ⟨rfl, by decide, by decide, by decide⟩

/-- C4 (amended): a 3-file batch whose second upload fails still persists
MediaRecords for the first and third files, processing each file
independently, and responds 201 with exactly those two documents in input
order; the failing file yields no reported outcome (its failure is only
logged). -/
theorem C4_amended_partial_batch (env : MediaEnv) (body : MediaBody)
    (f1 f2 f3 : UpFile) (fs : FS) (remote : Remote)
    (ra rc : MediaCloudResult) (e : String)
    (hval : env.validationErrors = [])
    (h0 : env.upload 0 = .ok ra) (h1 : env.upload 1 = .error e)
    (h2 : env.upload 2 = .ok rc)
    (hs0 : env.save 0 = .ok ()) (hs2 : env.save 2 = .ok ()) :
    (uploadMedia env body [f1, f2, f3] fs remote).resp.status = 201
    ∧ (uploadMedia env body [f1, f2, f3] fs remote).resp.data
        = [buildMediaItem env body f1 ra (thumbStep env 0 f1).1,
           buildMediaItem env body f3 rc (thumbStep env 2 f3).1] := by
  have hc : collectSucc env body 0 [f1, f2, f3]
      = [buildMediaItem env body f1 ra (thumbStep env 0 f1).1,
         buildMediaItem env body f3 rc (thumbStep env 2 f3).1] := by
    show headSucc env body 0 f1
      ++ (headSucc env body 1 f2 ++ (headSucc env body 2 f3 ++ [])) = _
    rw [headSucc_ok env body 0 f1 ra h0 hs0,
        headSucc_upload_error env body 1 f2 e h1,
        headSucc_ok env body 2 f3 rc h2 hs2]
    simp
  rw [uploadMedia_eq_of_run env body [f1, f2, f3] fs remote hval (by simp),
      if_neg (by rw [hc]; simp)]
  exact ⟨rfl, by dsimp only; rw [hc]⟩

/-- Witness for C4 (amended) at the concrete 3-file fixture. -/
theorem C4_amended_witness :
    (uploadMedia envSecondFails emptyBody [file1, file2, file3]
        [file1.path, file2.path, file3.path] []).resp.status = 201
    ∧ (uploadMedia envSecondFails emptyBody [file1, file2, file3]
        [file1.path, file2.path, file3.path] []).resp.data
      = [buildMediaItem envSecondFails emptyBody file1 crP0
            (thumbStep envSecondFails 0 file1).1,
         buildMediaItem envSecondFails emptyBody file3 crP2
            (thumbStep envSecondFails 2 file3).1] :=
  C4_amended_partial_batch envSecondFails emptyBody file1 file2 file3
    [file1.path, file2.path, file3.path] [] crP0 crP2
    "remote store rejected" rfl rfl rfl rfl rfl rfl

/-- C5: the HTTP status of an upload request is 400 when express-validator
rejected it or `req.files` is empty (before any upload began — the upload
middleware likewise answers 400 for every multer file-count/size error and
for the file filter's unsupported-type error); otherwise it is 201 exactly
when at least one file succeeded end to end (`uploadedMedia` nonempty,
characterised by `collectSucc`) and 500 exactly when every file failed. -/
theorem C5_http_status_mapping :
    (∀ (env : MediaEnv) (body : MediaBody) (files : List UpFile)
       (fs : FS) (remote : Remote), env.validationErrors ≠ [] →
      (uploadMedia env body files fs remote).resp.status = 400)
    ∧ (∀ (env : MediaEnv) (body : MediaBody) (fs : FS) (remote : Remote),
        env.validationErrors = [] →
        (uploadMedia env body [] fs remote).resp.status = 400)
    ∧ (∀ (env : MediaEnv) (body : MediaBody) (files : List UpFile)
         (fs : FS) (remote : Remote),
        env.validationErrors = [] → files ≠ [] →
        ((uploadMedia env body files fs remote).resp.status = 201
            ↔ collectSucc env body 0 files ≠ [])
        ∧ ((uploadMedia env body files fs remote).resp.status = 500
            ↔ collectSucc env body 0 files = []))
    ∧ (∀ (fs : FS) (files : List UpFile),
        (handleUploadError fs files .limitFileSize).response.map (·.status)
          = some 400
        ∧ (handleUploadError fs files .limitFileCount).response.map (·.status)
          = some 400
        ∧ (handleUploadError fs files .limitUnexpectedFile).response.map
            (·.status) = some 400
        ∧ (∀ msg, (handleUploadError fs files (.multerOther msg)).response.map
            (·.status) = some 400)
        ∧ (∀ msg, (handleUploadError fs files
            (.unsupportedType msg)).response.map (·.status) = some 400)) := by
  refine ⟨?_, ?_, ?_, ?_⟩
  · intro env body files fs remote h
    rw [uploadMedia_val_fail env body files fs remote h]
  · intro env body fs remote hval
    rw [uploadMedia_no_files env body fs remote hval]
  · intro env body files fs remote hval hne
    rw [uploadMedia_eq_of_run env body files fs remote hval hne]
    by_cases hc : collectSucc env body 0 files = []
    · rw [if_pos hc]
      constructor
      · simp [hc]
      · simp [hc]
    · rw [if_neg hc]
      constructor
      · simp [hc]
      · simp [hc]
  · intro fs files
    exact ⟨rfl, rfl, rfl, fun _ => rfl, fun _ => rfl⟩

/-- Witness for C5: a validation-rejected request, an empty-file request,
and the 3-file partial batch. -/
theorem C5_http_status_mapping_witness :
    (uploadMedia envValFail emptyBody [fileA] [fileA.path] []).resp.status
      = 400
    ∧ (uploadMedia envSaveFail emptyBody [] [] []).resp.status = 400
    ∧ ((uploadMedia envSecondFails emptyBody [file1, file2, file3]
        [file1.path, file2.path, file3.path] []).resp.status = 201
       ↔ collectSucc envSecondFails emptyBody 0 [file1, file2, file3] ≠ []) :=
  ⟨C5_http_status_mapping.1 envValFail emptyBody [fileA] [fileA.path] []
     (by simp [envValFail]),
   C5_http_status_mapping.2.1 envSaveFail emptyBody [] [] rfl,
   (C5_http_status_mapping.2.2.1 envSecondFails emptyBody
     [file1, file2, file3] [file1.path, file2.path, file3.path] []
     rfl (by simp)).1⟩

/-- C7: a video whose remote upload succeeds is persisted even when the
thumbnail derivation fails — the thumbnail rejection is caught and logged,
and the MediaRecord is saved and returned without a thumbnail URL. -/
theorem C7_thumbnail_failure_nonfatal (env : MediaEnv) (body : MediaBody)
    (f : UpFile) (fs : FS) (remote : Remote) (rc : MediaCloudResult)
    (e : String)
    (hval : env.validationErrors = [])
    (hv : mediaTypeOf f = "video")
    (hup : env.upload 0 = .ok rc)
    (hth : env.thumbUpload 0 = .error e)
    (hsv : env.save 0 = .ok ()) :
    (uploadMedia env body [f] fs remote).resp.status = 201
    ∧ (uploadMedia env body [f] fs remote).resp.data
        = [buildMediaItem env body f rc none]
    ∧ (buildMediaItem env body f rc none).thumbMedium = none := by
  have hts : thumbStep env 0 f = (none, []) :=
    thumbStep_video_error env 0 f e hv hth
  have hc : collectSucc env body 0 [f] = [buildMediaItem env body f rc none] := by
    show headSucc env body 0 f ++ [] = _
    rw [headSucc_ok env body 0 f rc hup hsv, hts]
    simp
  rw [uploadMedia_eq_of_run env body [f] fs remote hval (by simp),
      if_neg (by rw [hc]; simp)]
  exact ⟨rfl, by dsimp only; rw [hc], rfl⟩

/-- Witness for C7 at the concrete video fixture. -/
theorem C7_thumbnail_failure_witness :
    (uploadMedia envVideoThumbFail emptyBody [fileV] [fileV.path] []).resp.status
      = 201
    ∧ (uploadMedia envVideoThumbFail emptyBody [fileV] [fileV.path] []).resp.data
      = [buildMediaItem envVideoThumbFail emptyBody fileV crV none]
    ∧ (buildMediaItem envVideoThumbFail emptyBody fileV crV none).thumbMedium
      = none :=
  C7_thumbnail_failure_nonfatal envVideoThumbFail emptyBody fileV
    [fileV.path] [] crV "thumbnail generation failed"
    rfl (by decide) rfl rfl rfl

/-- C8: the response's per-file outcome list preserves the input file
order for every batch — `data` is exactly the in-order sublist of success
documents (`collectSucc`), never reordered or deduplicated; and the
`Promise.all` helper `uploadMultipleToCloudinary` resolves with exactly one
result per input file, in input order. -/
theorem C8_order_preservation :
    (∀ (env : MediaEnv) (body : MediaBody) (files : List UpFile)
       (fs : FS) (remote : Remote),
      ((uploadMedia env body files fs remote).resp.data.map
        (·.filename)).Sublist (files.map (·.originalname)))
    ∧ (∀ (env : MediaEnv) (body : MediaBody) (files : List UpFile)
         (fs : FS) (remote : Remote),
        env.validationErrors = [] →
        (uploadMedia env body files fs remote).resp.data
          = collectSucc env body 0 files)
    ∧ (∀ (env : CloudOracle) (files : List UpFile) (fs : FS)
         (remote : Remote) (folder : String),
        Except.map (fun l => l.length)
            (uploadMultipleToCloudinary env fs remote files folder).2.2
          = Except.map (fun _ => files.length)
            (uploadMultipleToCloudinary env fs remote files folder).2.2) := by
  have hdata : ∀ (env : MediaEnv) (body : MediaBody) (files : List UpFile)
      (fs : FS) (remote : Remote), env.validationErrors = [] →
      (uploadMedia env body files fs remote).resp.data
        = collectSucc env body 0 files := by
    intro env body files fs remote hval
    rcases files with _ | ⟨f, rest⟩
    · rw [uploadMedia_no_files env body fs remote hval]
      rfl
    · rw [uploadMedia_eq_of_run env body (f :: rest) fs remote hval (by simp)]
      by_cases hc : collectSucc env body 0 (f :: rest) = []
      · rw [if_pos hc]
        exact hc.symm
      · rw [if_neg hc]
  refine ⟨?_, hdata, fun env files fs remote folder =>
    uploadMultiple_length env files fs remote folder⟩
  intro env body files fs remote
  by_cases hval : env.validationErrors = []
  · rw [hdata env body files fs remote hval]
    exact collectSucc_filenames_sublist env body files 0
  · rw [uploadMedia_val_fail env body files fs remote hval]
    exact List.nil_sublist _

/-- Witness for C8 at the 3-file partial batch. -/
theorem C8_order_preservation_witness :
    (uploadMedia envSecondFails emptyBody [file1, file2, file3]
        [file1.path, file2.path, file3.path] []).resp.data
      = collectSucc envSecondFails emptyBody 0 [file1, file2, file3] :=
  C8_order_preservation.2.1 envSecondFails emptyBody [file1, file2, file3]
    [file1.path, file2.path, file3.path] [] rfl

end MediaPipeline
